import Mathlib

/-!
# Verification of the vocabulary-trainer core (AnonTokyo.py)

Shallow embedding of the core logic of the flashcard application:
the word validator, the spaced-repetition scheduler (`WordScreen.mark`),
database statistics (`check_database_stats`), the frequency-list builder
(`generate_top_words`), the candidate lookup (`get_next_words`), the
word-addition paths (`AddWordScreen._add_word_thread`), enrichment-response
parsing (`fetch_word_details`), mode queries (`get_words_for_mode`) and the
CSV importer (`import_words_from_csv`).

Modelling conventions:
* Python strings are Lean `String`s (lists of characters).
* Dates are embedded as integer day numbers.  The program stores ISO-8601
  date strings and compares them with SQLite's lexicographic `<=`, which on
  ISO dates coincides with chronological order, so an integer day number is
  an order-faithful model; `datetime.timedelta(days = n)` becomes `+ n`.
* SQLite rows of the `words` table become the structure `Entry`.  The
  `learned` / `mastered` BOOLEAN columns are integers in SQLite and the
  queries compare them with `= 0` / `= 1`, so they are modelled as `Int`.
  A NULL text column is modelled as `""` (no claim distinguishes the two);
  NULL date columns are `Option.none`.
* The generative-language transport is a function `String → Except Unit
  String` taking the word to the raw response text (`.error` models any
  transport exception).
-/

/-! ## Character and string helpers (Python semantics) -/

/-- Characters matched by the regex class `[a-zA-Z]`. -/
def isAsciiAlpha (c : Char) : Bool :=
  ('a' ≤ c && c ≤ 'z') || ('A' ≤ c && c ≤ 'Z')

/-- Python `str.strip()` on a character list: remove leading and trailing
whitespace (modelled for the ASCII whitespace `Char.isWhitespace` covers). -/
def pyStripChars (cs : List Char) : List Char :=
  ((cs.dropWhile Char.isWhitespace).reverse.dropWhile Char.isWhitespace).reverse

/-- Python `str.strip()`. -/
def pyStrip (s : String) : String :=
  ⟨pyStripChars s.data⟩

/-- Python `str.lower()` (modelled for ASCII letters). -/
def pyLower (s : String) : String :=
  ⟨s.data.map Char.toLower⟩

/-- Python `str.split(sep)` for a one-character separator: no collapsing of
adjacent separators, `""` splits to `[""]`. -/
def splitOnChar (sep : Char) : List Char → List (List Char)
  | [] => [[]]
  | c :: rest =>
    if c = sep then [] :: splitOnChar sep rest
    else
      match splitOnChar sep rest with
      | [] => [[c]]
      | l :: ls => (c :: l) :: ls

/-- Fuel-bounded worker for `removeOcc`; the fuel is an upper bound on the
number of characters still to scan, so `removeOccFuel pat cs.length cs`
terminates structurally. -/
def removeOccFuel (pat : List Char) : Nat → List Char → List Char
  | 0, cs => cs
  | _ + 1, [] => []
  | fuel + 1, c :: rest =>
    if pat.isPrefixOf (c :: rest) then
      removeOccFuel pat fuel (rest.drop (pat.length - 1))
    else
      c :: removeOccFuel pat fuel rest

/-- Python `str.replace(pat, '')` for a non-empty literal `pat`: delete every
occurrence of `pat`, scanning left to right. -/
def removeOcc (pat : List Char) (cs : List Char) : List Char :=
  removeOccFuel pat cs.length cs

/-- Value of a non-empty digit string. -/
def digitsToNat (cs : List Char) : Nat :=
  cs.foldl (fun n c => 10 * n + (c.toNat - 48)) 0

/-- Python `int(s)` on a string: optional surrounding whitespace, optional
sign, at least one digit; `none` models the `ValueError` it raises. -/
def pyInt? (s : String) : Option Int :=
  match pyStripChars s.data with
  | [] => none
  | '+' :: ds =>
    if ds ≠ [] ∧ ds.all Char.isDigit = true then some (digitsToNat ds) else none
  | '-' :: ds =>
    if ds ≠ [] ∧ ds.all Char.isDigit = true then some (-(digitsToNat ds : Int)) else none
  | ds =>
    if ds.all Char.isDigit = true then some (digitsToNat ds) else none

/-- Python `int(s or d)`: an empty string is falsy, so it yields the default
`d`; otherwise the string is parsed (and may fail). -/
def pyIntOrDefault (s : String) (d : Int) : Option Int :=
  if s = "" then some d else pyInt? s

/-- Day number of a civil date (proleptic Gregorian); used to embed the
ISO-8601 date strings the program stores as integers. -/
def daysFromCivil (y m d : Nat) : Int :=
  let y' : Int := if m ≤ 2 then (y : Int) - 1 else (y : Int)
  let era : Int := y'.fdiv 400
  let yoe : Int := y' - era * 400
  let mp : Int := ((m : Int) + 9) % 12
  let doy : Int := (153 * mp + 2).fdiv 5 + (d : Int) - 1
  let doe : Int := yoe * 365 + yoe.fdiv 4 - yoe.fdiv 100 + doy
  era * 146097 + doe - 719468

/-- Day number of an ISO-8601 `YYYY-MM-DD` string; `none` for anything that
is not three dash-separated digit groups. -/
def dayOfIso? (s : String) : Option Int :=
  match splitOnChar '-' s.data with
  | [ys, ms, ds] =>
    if ys ≠ [] ∧ ms ≠ [] ∧ ds ≠ [] ∧
        ys.all Char.isDigit = true ∧ ms.all Char.isDigit = true ∧ ds.all Char.isDigit = true then
      some (daysFromCivil (digitsToNat ys) (digitsToNat ms) (digitsToNat ds))
    else none
  | _ => none

/-! ## The word validator -/

/-- `is_valid_word` (source lines 283-285): `bool(word and
re.match(r'{caret}[a-zA-Z]+$', word))`.  `re.match` anchors at the start of the
string; Python's `$` matches at the end of the string or just before one
newline that ends the string, so the regex accepts a non-empty run of ASCII
letters optionally followed by a single trailing `'\n'`.  The greedy `+` over
a class not containing `'\n'` needs no backtracking: take the maximal
alphabetic run and require the remainder to be empty or exactly `"\n"`. -/
def is_valid_word (w : String) : Bool :=
  let taken := w.data.takeWhile isAsciiAlpha
  let rest := w.data.dropWhile isAsciiAlpha
  decide (taken ≠ []) && (rest == [] || rest == ['\n'])

/-- Spec-side reading of the validator contract, for comparison: `w` matches
`{caret}[a-zA-Z]+$` taken as "the whole string is one or more ASCII letters"
(so no digit, whitespace or symbol anywhere). -/
def matchesAlphaAnchored (w : String) : Bool :=
  decide (w.data ≠ []) && w.data.all isAsciiAlpha

/-! ## The word store -/

/-- One row of the `words` table (source lines 213-230). -/
structure Entry where
  id : Nat
  word : String
  exampleSentence : String
  zh_translation : String
  ja_translation : String
  zh_example_translation : String
  ja_example_translation : String
  pos : String
  tense : String
  familiarity : Int
  last_reviewed : Option Int
  learned : Int
  mastered : Int
  interval : Int
  next_review : Option Int
deriving DecidableEq, Repr

/-- The `words` table plus the `AUTOINCREMENT` counter for `id`. -/
structure Store where
  entries : List Entry
  nextId : Nat
deriving DecidableEq, Repr

/-- A fresh database: no rows, `AUTOINCREMENT` starts at 1. -/
def emptyStore : Store := ⟨[], 1⟩

/-- SQLite `next_review <= today` under the date model: a NULL date compares
false. -/
def nextReviewLE : Option Int → Int → Bool
  | none, _ => false
  | some d, t => d ≤ t

/-- `WordScreen.mark` (source lines 971-994), the review scheduler, applied
to the selected row: read the stored interval through Python's `or 1`
truthiness guard (`cur.fetchone()[0] or 1`, which turns a stored `0` into
`1`), compute the new interval from the familiarity level, and update the
row: `familiarity = lvl`, `last_reviewed = today`, `interval = new_interval`,
`next_review = today + new_interval` days, `learned = 1`. -/
def applyReviewEntry (e : Entry) (lvl : Int) (today : Int) : Entry :=
  let current_interval : Int := if e.interval = 0 then 1 else e.interval
  let new_interval : Int :=
    if lvl = 1 then 1
    else if lvl = 3 then current_interval + 1
    else if lvl = 5 then current_interval * 2
    else current_interval
  { e with
    familiarity := lvl
    last_reviewed := some today
    interval := new_interval
    next_review := some (today + new_interval)
    learned := 1 }

/-- `WordScreen.mastered` (source lines 1000-1010) applied to the selected
row: `UPDATE words SET mastered=1, learned=1`. -/
def markMasteredEntry (e : Entry) : Entry :=
  { e with mastered := 1, learned := 1 }

/-- Outcome of the explicit-add path, standing for the status-label message
the screen shows (`InvalidWordError` / `DuplicateWordError` / success in the
spec's taxonomy). -/
inductive AddResult where
  | added
  | invalid
  | duplicate
deriving DecidableEq, Repr

/-- The explicit-word branch of `AddWordScreen._add_word_thread` (source
lines 1124-1143): strip the input (no lowercasing on this path), reject an
invalid word, reject a word already stored (`SELECT COUNT(*) FROM words
WHERE word = ?`, an exact, case-sensitive comparison), otherwise insert with
`familiarity=1, learned=0, mastered=0, interval=1` and the user-supplied
example/translation fields verbatim. -/
def add_explicit_word (s : Store) (input exampleText zh ja : String) : Store × AddResult :=
  let word := pyStrip input
  if is_valid_word word = false then (s, .invalid)
  else if 0 < s.entries.countP (fun e => e.word == word) then (s, .duplicate)
  else
    ({ entries := s.entries ++
        [{ id := s.nextId
           word := word
           exampleSentence := exampleText
           zh_translation := zh
           ja_translation := ja
           zh_example_translation := ""
           ja_example_translation := ""
           pos := ""
           tense := ""
           familiarity := 1
           last_reviewed := none
           learned := 0
           mastered := 0
           interval := 1
           next_review := none }]
       nextId := s.nextId + 1 },
     .added)

/-! ## Enrichment gateway (`fetch_word_details`) -/

/-- The seven enrichment fields `fetch_word_details` returns. -/
structure WordDetails where
  exampleSentence : String
  zh_trans : String
  ja_trans : String
  zh_example_trans : String
  ja_example_trans : String
  pos : String
  tense : String
deriving DecidableEq, Repr

/-- The initial/fallback tuple of `fetch_word_details` (source line 289):
everything empty except `pos` and `tense`, which hold the `'未知'`
("unknown") sentinel. -/
def blankDetails : WordDetails :=
  ⟨"", "", "", "", "", "未知", "未知"⟩

/-- `resp.text.strip().split('\n')` followed by dropping falsy (empty)
lines (source line 309). -/
def pyLines (text : String) : List (List Char) :=
  (splitOnChar '\n' (pyStripChars text.data)).filter (fun l => decide (l ≠ []))

/-- Field `k` of the parsed response: `lines[k].replace(pre, '') if
len(lines) > k else ''`.  A missing line and a line whose replacement is
empty both come out as `""`, so `List.getD` with default `[]` is exact. -/
def lineField (lines : List (List Char)) (k : Nat) (pre : String) : String :=
  ⟨removeOcc pre.data (lines.getD k [])⟩

/-- The response-parsing half of `fetch_word_details` (source lines
309-316). -/
def parse_word_details (text : String) : WordDetails :=
  let lines := pyLines text
  let zh_trans := lineField lines 0 "Chinese Translation: "
  let ja_trans := lineField lines 1 "Japanese Translation: "
  let exampleText := lineField lines 2 "Example: "
  let zh_example_trans := lineField lines 3 "Chinese Example Translation: "
  let ja_example_trans := lineField lines 4 "Japanese Example Translation: "
  let pos0 := lineField lines 5 "Part of Speech: "
  let tense0 := lineField lines 6 "Tense Changes: "
  { exampleSentence := exampleText
    zh_trans := zh_trans
    ja_trans := ja_trans
    zh_example_trans := zh_example_trans
    ja_example_trans := ja_example_trans
    pos := if pos0 = "" then "未知" else pos0
    tense := if tense0 = "" then "未知" else tense0 }

/-- `fetch_word_details` (source lines 287-320) against a transport `g`
taking the word to the raw response text.  The function initialises every
field to the blank/sentinel tuple, and its `try`/`except` catches every
exception of the round trip, so a transport failure returns exactly
`blankDetails`; a response is parsed index-safely. -/
def fetch_word_details (g : String → Except Unit String) (word : String) : WordDetails :=
  match g word with
  | .error _ => blankDetails
  | .ok text => parse_word_details text

/-- A transport that always fails (network down, invalid key, ...). -/
def failingGateway : String → Except Unit String := fun _ => .error ()

/-! ## Word-acquisition pipeline (dataset branch) -/

/-- Insert one candidate with its fetched details (the `INSERT` of source
lines 1153-1155): `familiarity=1, learned=0, mastered=0, interval=1`. -/
def insertDatasetEntry (s : Store) (w : String) (d : WordDetails) : Store :=
  { entries := s.entries ++
      [{ id := s.nextId
         word := w
         exampleSentence := d.exampleSentence
         zh_translation := d.zh_trans
         ja_translation := d.ja_trans
         zh_example_translation := d.zh_example_trans
         ja_example_translation := d.ja_example_trans
         pos := d.pos
         tense := d.tense
         familiarity := 1
         last_reviewed := none
         learned := 0
         mastered := 0
         interval := 1
         next_review := none }]
    nextId := s.nextId + 1 }

/-- The dataset branch of `AddWordScreen._add_word_thread` (source lines
1144-1162): for each candidate, skip it if it is already stored, otherwise
call `fetch_word_details` (which is total — its own `except` swallows
enrichment failures and returns the blank tuple) and insert the row, counting
it.  The per-word `except` of the loop therefore never fires on an enrichment
failure. -/
def add_from_dataset (g : String → Except Unit String) (s : Store) :
    List String → Store × Nat
  | [] => (s, 0)
  | w :: ws =>
    if 0 < s.entries.countP (fun e => e.word == w) then
      add_from_dataset g s ws
    else
      let s' := insertDatasetEntry s w (fetch_word_details g w)
      let r := add_from_dataset g s' ws
      (r.1, r.2 + 1)

/-! ## Frequency list (`generate_top_words`, `get_next_words`) -/

/-- The filtering pass of `generate_top_words` (source lines 172-178): each
dataset row's word is stripped and lowercased, and kept with its frequency
when it passes the validator.  Rows are modelled post-CSV-decode as
`(word, frequency)` pairs (the code skips rows with fewer than two columns
and parses the frequency with `int` before this point). -/
def validPairs (rows : List (String × Int)) : List (String × Int) :=
  rows.filterMap (fun r =>
    let w := pyLower (pyStrip r.1)
    if is_valid_word w = true then some (w, r.2) else none)

/-- Insert into a descending-by-frequency list, after every element of
frequency ≥ the new one: together with `sortDescFreq` this realises
`list.sort(key=lambda x: x[1], reverse=True)`, which is Python's stable sort
(ties keep original order). -/
def insertDescFreq (x : String × Int) : List (String × Int) → List (String × Int)
  | [] => [x]
  | y :: ys => if y.2 ≤ x.2 then x :: y :: ys else y :: insertDescFreq x ys

/-- Stable descending sort by frequency (model of `word_freq.sort(key=lambda
x: x[1], reverse=True)`, source line 179). -/
def sortDescFreq : List (String × Int) → List (String × Int)
  | [] => []
  | x :: xs => insertDescFreq x (sortDescFreq xs)

/-- `generate_top_words` (source lines 159-187), the pure list computation:
filter to valid words, stable-sort by descending frequency, truncate to
`limit`, keep the words. -/
def generate_top_words (rows : List (String × Int)) (limit : Nat) : List String :=
  ((sortDescFreq (validPairs rows)).take limit).map Prod.fst

/-- The file-level behaviour of `generate_top_words`: if the cached top-words
file exists it is left as is; otherwise a missing dataset raises
`FileNotFoundError` (modelled as `.error`), and an existing dataset is
processed into the cache with the default `limit=10000`. -/
def generate_top_words_file (cache : Option (List String))
    (dataset : Option (List (String × Int))) : Except Unit (List String) :=
  match cache with
  | some c => .ok c
  | none =>
    match dataset with
    | none => .error ()
    | some rows => .ok (generate_top_words rows 10000)

/-- `get_next_words` (source lines 189-206): ensure the top-words cache
exists (building it if the dataset is there), read its non-empty stripped
lines, drop the words already stored, take the first `n`.  Its `except
Exception` turns any failure — in particular the `FileNotFoundError` of a
missing dataset — into an empty result. -/
def get_next_words (cache : Option (List String))
    (dataset : Option (List (String × Int)))
    (existing : List String) (n : Nat) : List String :=
  match generate_top_words_file cache dataset with
  | .error _ => []
  | .ok fileLines =>
    let all_top_words := (fileLines.map pyStrip).filter (fun l => l != "")
    (all_top_words.filter (fun w => !(existing.contains w))).take n

/-! ## Statistics and mode queries -/

/-- The four counts of `check_database_stats` (source lines 264-281). -/
structure DbStats where
  total : Nat
  unlearned : Nat
  learned_not_mastered : Nat
  mastered : Nat
deriving DecidableEq, Repr

/-- `check_database_stats`: `COUNT(*)`, `COUNT(learned=0)`,
`COUNT(learned=1 AND mastered=0)`, `COUNT(mastered=1)`. -/
def check_database_stats (l : List Entry) : DbStats :=
  { total := l.length
    unlearned := l.countP (fun e => decide (e.learned = 0))
    learned_not_mastered := l.countP (fun e => decide (e.learned = 1) && decide (e.mastered = 0))
    mastered := l.countP (fun e => decide (e.mastered = 1)) }

/-- `get_words_for_mode` (source lines 359-380); the mode is the string the
screen router passes.  In `review` mode SQLite's `next_review <= today` is
false for a NULL `next_review`. -/
def get_words_for_mode (l : List Entry) (mode : String) (today : Int) : List Entry :=
  if mode == "learn" then
    l.filter (fun e => decide (e.learned = 0))
  else if mode == "review" then
    l.filter (fun e =>
      decide (e.learned = 1) && decide (e.mastered = 0) && nextReviewLE e.next_review today)
  else
    l.filter (fun e => decide (e.mastered = 1))

/-! ## CSV import (`import_words_from_csv`) -/

/-- One pass of the import loop (source lines 334-347) building the batch:
rows with fewer than 15 columns are skipped, the word (column 1, stripped and
lowercased) must be valid and not yet stored; the numeric columns go through
`int(column or default)`, whose `ValueError` (modelled as `.error`) aborts
the whole import.  The `id` of a batch row is assigned later, on insert. -/
def buildBatch (stored : List Entry) : List (List String) → Except Unit (List Entry)
  | [] => .ok []
  | row :: rest =>
    if row.length < 15 then buildBatch stored rest
    else
      let word := pyLower (pyStrip (row.getD 1 ""))
      if is_valid_word word = false then buildBatch stored rest
      else if 0 < stored.countP (fun e => e.word == word) then buildBatch stored rest
      else
        match pyIntOrDefault (row.getD 9 "") 1, pyIntOrDefault (row.getD 11 "") 0,
            pyIntOrDefault (row.getD 12 "") 0, pyIntOrDefault (row.getD 13 "") 1 with
        | some fam, some lrn, some mst, some itv =>
          (buildBatch stored rest).map (fun batch =>
            { id := 0
              word := word
              exampleSentence := row.getD 2 ""
              zh_translation := row.getD 3 ""
              ja_translation := row.getD 4 ""
              zh_example_translation := row.getD 5 ""
              ja_example_translation := row.getD 6 ""
              pos := row.getD 7 ""
              tense := row.getD 8 ""
              familiarity := fam
              last_reviewed := dayOfIso? (row.getD 10 "")
              learned := lrn
              mastered := mst
              interval := itv
              next_review :=
                if row.getD 14 "" == "" then none
                else dayOfIso? (row.getD 14 "") } :: batch)
        | _, _, _, _ => .error ()

/-- Assign `AUTOINCREMENT` ids to the batch rows on insert. -/
def attachIds : Nat → List Entry → List Entry
  | _, [] => []
  | n, e :: es => { e with id := n } :: attachIds (n + 1) es

/-- `import_words_from_csv` (source lines 322-357) over the decoded data
rows (header already skipped): build the batch, then `executemany` it and
commit, reporting the batch size.  Any exception — a numeric `ValueError`
while building, or the UNIQUE-constraint violation `executemany` hits when
the batch repeats a word — is caught, nothing is committed, and 0 is
reported. -/
def import_words_from_csv (s : Store) (rows : List (List String)) : Store × Nat :=
  match buildBatch s.entries rows with
  | .error _ => (s, 0)
  | .ok batch =>
    if (batch.map (fun e => e.word)).Nodup then
      ({ entries := s.entries ++ attachIds s.nextId batch
         nextId := s.nextId + batch.length }, batch.length)
    else (s, 0)

/-! ## Sequences of user actions

The operations the stats/interval invariants quantify over: the two creation
paths, a review action, and marking mastered.  A review or master action on
an id not in the table updates nothing (the code's `except` swallows the
failed fetch). -/

inductive Op where
  | create (input exampleText zh ja : String)
  | addData (w : String) (d : WordDetails)
  | review (id : Nat) (lvl : Int) (today : Int)
  | master (id : Nat)

/-- One user action against the store. -/
def stepOp (s : Store) : Op → Store
  | .create input exampleText zh ja => (add_explicit_word s input exampleText zh ja).1
  | .addData w d =>
    if 0 < s.entries.countP (fun e => e.word == w) then s
    else insertDatasetEntry s w d
  | .review id lvl today =>
    { s with entries := s.entries.map (fun e =>
        if e.id = id then applyReviewEntry e lvl today else e) }
  | .master id =>
    { s with entries := s.entries.map (fun e =>
        if e.id = id then markMasteredEntry e else e) }

/-- Run a sequence of user actions from the empty store. -/
def runOps (ops : List Op) : Store :=
  ops.foldl stepOp emptyStore

/-! ## Auxiliary definitions for the statements -/

/-- The shape every row reachable by user actions has: the boolean columns
hold 0 or 1, and a mastered row is learned. -/
def entryOk (e : Entry) : Prop :=
  (e.learned = 0 ∨ e.learned = 1) ∧ (e.mastered = 0 ∨ e.mastered = 1) ∧
    (e.mastered = 1 → e.learned = 1)

/-- A stored row with interval 4, as in the spec's scheduler law. -/
def sampleEntry : Entry :=
  ⟨1, "cat", "", "", "", "", "", "", "", 1, none, 0, 0, 4, none⟩

/-- A 15-column export row whose `interval` column (index 13) holds `"0"`. -/
def badImportRow : List String :=
  ["7", "cat", "", "", "", "", "", "", "", "1", "", "1", "0", "0", ""]

/-! ## Theorems -/

/-- Claim C1: the review action.  For a stored row (its interval is ≥ 1, per
the data-model invariant): level 1 resets the interval to 1, level 3 adds 1,
level 5 doubles it, any other level leaves it unchanged; and in all cases
`next_review` becomes `today` plus the new interval, `learned` becomes true
(1), `last_reviewed` becomes `today`, and `familiarity` becomes the level. -/
theorem applyReview_spec (e : Entry) (lvl today : Int) (h : 1 ≤ e.interval) :
    (lvl = 1 → (applyReviewEntry e lvl today).interval = 1) ∧
    (lvl = 3 → (applyReviewEntry e lvl today).interval = e.interval + 1) ∧
    (lvl = 5 → (applyReviewEntry e lvl today).interval = e.interval * 2) ∧
    (lvl ≠ 1 → lvl ≠ 3 → lvl ≠ 5 → (applyReviewEntry e lvl today).interval = e.interval) ∧
    (applyReviewEntry e lvl today).next_review =
      some (today + (applyReviewEntry e lvl today).interval) ∧
    (applyReviewEntry e lvl today).learned = 1 ∧
    (applyReviewEntry e lvl today).last_reviewed = some today ∧
    (applyReviewEntry e lvl today).familiarity = lvl := by
  have hz : ¬ e.interval = 0 := by omega
  unfold applyReviewEntry
  simp only [if_neg hz]
  refine ⟨?_, ?_, ?_, ?_, by trivial, by trivial, by trivial, by trivial⟩
  · intro h1; simp [h1]
  · intro h3; subst h3; norm_num
  · intro h5; subst h5; norm_num
  · intro h1 h3 h5; simp [h1, h3, h5]

/-- Witness for C1, the spec's own scheduler law: interval 4 marked familiar
(level 5) on day 100 becomes interval 8 with next review on day 108. -/
theorem applyReview_spec_witness :
    (applyReviewEntry sampleEntry 5 100).interval = 8 ∧
    (applyReviewEntry sampleEntry 5 100).next_review = some 108 := by
  have h := applyReview_spec sampleEntry 5 100 (by decide)
  have h5 : (applyReviewEntry sampleEntry 5 100).interval = 8 := by
    have := h.2.2.1 rfl
    simpa [sampleEntry] using this
  have hn := h.2.2.2.2.1
  rw [h5] at hn
  exact ⟨h5, by simpa using hn⟩

/-- Claim C4 counterexample: `"abc\n"` contains whitespace (a newline) yet
the validator accepts it, because Python's `$` also matches just before a
single trailing newline; so the validator does not coincide with the
anchored pattern read as "every character is a letter". -/
theorem is_valid_word_newline :
    is_valid_word "abc\n" = true ∧ matchesAlphaAnchored "abc\n" = false ∧
      '\n' ∈ "abc\n".data ∧ Char.isWhitespace '\n' = true := by decide

/-- Helper: `takeWhile` walks through a block that satisfies the predicate. -/
theorem takeWhile_append_all {p : Char → Bool} (l r : List Char)
    (h : ∀ c ∈ l, p c = true) : (l ++ r).takeWhile p = l ++ r.takeWhile p := by
  induction l with
  | nil => simp
  | cons c cs ih =>
    have hc := h c (List.mem_cons_self c cs)
    have hrec := ih (fun c' hc' => h c' (List.mem_cons_of_mem _ hc'))
    simp [List.takeWhile_cons, hc, hrec]

/-- Helper: `dropWhile` drops a block that satisfies the predicate. -/
theorem dropWhile_append_all {p : Char → Bool} (l r : List Char)
    (h : ∀ c ∈ l, p c = true) : (l ++ r).dropWhile p = r.dropWhile p := by
  induction l with
  | nil => simp
  | cons c cs ih =>
    have hc := h c (List.mem_cons_self c cs)
    have hrec := ih (fun c' hc' => h c' (List.mem_cons_of_mem _ hc'))
    simp [List.dropWhile_cons, hc, hrec]

/-- Claim C4 (amended): the validator accepts exactly the non-empty runs of
ASCII letters optionally followed by one trailing newline; hence every
string containing a digit, space, or symbol anywhere else is rejected. -/
theorem is_valid_word_characterization (w : String) :
    is_valid_word w = true ↔
      ∃ cs : List Char, cs ≠ [] ∧ (∀ c ∈ cs, isAsciiAlpha c = true) ∧
        (w.data = cs ∨ w.data = cs ++ ['\n']) := by
  unfold is_valid_word
  simp only [Bool.and_eq_true, Bool.or_eq_true, beq_iff_eq, decide_eq_true_eq]
  constructor
  · rintro ⟨hne, hrest⟩
    refine ⟨w.data.takeWhile isAsciiAlpha, hne,
      fun c hc => List.mem_takeWhile_imp hc, ?_⟩
    rcases hrest with hr | hr
    · left
      conv_lhs => rw [← List.takeWhile_append_dropWhile (p := isAsciiAlpha) (l := w.data)]
      rw [hr, List.append_nil]
    · right
      conv_lhs => rw [← List.takeWhile_append_dropWhile (p := isAsciiAlpha) (l := w.data)]
      rw [hr]
  · rintro ⟨cs, hne, halpha, hcase | hcase⟩ <;> rw [hcase]
    · have h1 : cs.takeWhile isAsciiAlpha = cs := by
        simpa using takeWhile_append_all cs [] halpha
      have h2 : cs.dropWhile isAsciiAlpha = [] := by
        simpa using dropWhile_append_all cs [] halpha
      exact ⟨by rw [h1]; exact hne, Or.inl h2⟩
    · have hnl : List.takeWhile isAsciiAlpha ['\n'] = [] := by decide
      have hnl' : List.dropWhile isAsciiAlpha ['\n'] = ['\n'] := by decide
      constructor
      · rw [takeWhile_append_all cs ['\n'] halpha, hnl, List.append_nil]
        exact hne
      · right
        rw [dropWhile_append_all cs ['\n'] halpha, hnl']

/-- Claim C8: review mode returns exactly the stored rows with
`learned = 1`, `mastered = 0` and a non-NULL `next_review ≤ today`; in
particular nothing overdue-but-mastered and nothing scheduled in the
future. -/
theorem get_words_for_mode_review (l : List Entry) (today : Int) (e : Entry) :
    e ∈ get_words_for_mode l "review" today ↔
      e ∈ l ∧ e.learned = 1 ∧ e.mastered = 0 ∧
        ∃ d, e.next_review = some d ∧ d ≤ today := by
  have hmode : (("review" : String) == "learn") = false := by decide
  unfold get_words_for_mode
  rw [hmode]
  simp only [Bool.false_eq_true, if_false, beq_self_eq_true, if_true, List.mem_filter,
    Bool.and_eq_true, decide_eq_true_eq]
  constructor
  · rintro ⟨hmem, ⟨h1, h2⟩, h3⟩
    refine ⟨hmem, h1, h2, ?_⟩
    cases hnr : e.next_review with
    | none => rw [hnr] at h3; exact absurd h3 (by simp [nextReviewLE])
    | some d =>
      rw [hnr] at h3
      exact ⟨d, rfl, by simpa [nextReviewLE] using h3⟩
  · rintro ⟨hmem, h1, h2, d, hd, hle⟩
    exact ⟨hmem, ⟨h1, h2⟩, by simp [nextReviewLE, hd, hle]⟩

/-- Claim C10: with no cached top-words list and no dataset file, the
candidate lookup swallows the missing-dataset failure and returns the empty
list, so the batch pipeline adds nothing and reports 0, for any transport
and any store. -/
theorem get_next_words_missing_dataset (existing : List String) (n : Nat)
    (g : String → Except Unit String) (s : Store) :
    get_next_words none none existing n = [] ∧
    add_from_dataset g s (get_next_words none none existing n) = (s, 0) :=
  ⟨rfl, rfl⟩

/-- Helper: inserting into the sorted list is a permutation of consing. -/
theorem insertDescFreq_perm (x : String × Int) (l : List (String × Int)) :
    List.Perm (insertDescFreq x l) (x :: l) := by
  induction l with
  | nil => exact List.Perm.refl _
  | cons y ys ih =>
    unfold insertDescFreq
    split
    · exact List.Perm.refl _
    · exact (ih.cons y).trans (List.Perm.swap x y ys)

/-- Helper: the stable sort is a permutation of its input. -/
theorem sortDescFreq_perm (l : List (String × Int)) :
    List.Perm (sortDescFreq l) l := by
  induction l with
  | nil => exact List.Perm.refl _
  | cons x xs ih =>
    exact (insertDescFreq_perm x (sortDescFreq xs)).trans (ih.cons x)

/-- Helper: membership in an insertion. -/
theorem mem_insertDescFreq {a x : String × Int} {l : List (String × Int)} :
    a ∈ insertDescFreq x l ↔ a = x ∨ a ∈ l := by
  rw [(insertDescFreq_perm x l).mem_iff, List.mem_cons]

/-- Helper: inserting preserves the descending-by-frequency order. -/
theorem pairwise_insertDescFreq (x : String × Int) (l : List (String × Int))
    (h : l.Pairwise (fun a b => b.2 ≤ a.2)) :
    (insertDescFreq x l).Pairwise (fun a b => b.2 ≤ a.2) := by
  induction l with
  | nil => simp [insertDescFreq]
  | cons y ys ih =>
    rcases List.pairwise_cons.mp h with ⟨hy, hys⟩
    unfold insertDescFreq
    split
    · rename_i hle
      refine List.pairwise_cons.mpr ⟨?_, h⟩
      intro z hz
      rcases List.mem_cons.mp hz with rfl | hz'
      · exact hle
      · exact le_trans (hy z hz') hle
    · rename_i hle
      refine List.pairwise_cons.mpr ⟨?_, ih hys⟩
      intro z hz
      rcases mem_insertDescFreq.mp hz with rfl | hz'
      · omega
      · exact hy z hz'

/-- Helper: the whole sort is descending by frequency. -/
theorem sortDescFreq_pairwise (l : List (String × Int)) :
    (sortDescFreq l).Pairwise (fun a b => b.2 ≤ a.2) := by
  induction l with
  | nil => simp [sortDescFreq]
  | cons x xs ih => exact pairwise_insertDescFreq x (sortDescFreq xs) ih

/-- Helper for stability: restricted to one frequency value, inserting adds
the new pair in front of nothing or behind nothing else of that value. -/
theorem filter_insertDescFreq (v : Int) (x : String × Int) (l : List (String × Int)) :
    (insertDescFreq x l).filter (fun p => p.2 == v) =
      if x.2 = v then x :: l.filter (fun p => p.2 == v)
      else l.filter (fun p => p.2 == v) := by
  induction l with
  | nil =>
    by_cases hxv : x.2 = v <;>
      simp [insertDescFreq, List.filter_cons, beq_iff_eq, hxv]
  | cons y ys ih =>
    unfold insertDescFreq
    split
    · rename_i hle
      by_cases hxv : x.2 = v <;> simp [List.filter_cons, beq_iff_eq, hxv]
    · rename_i hle
      rw [List.filter_cons, ih]
      by_cases hyv : y.2 = v <;> by_cases hxv : x.2 = v
      · omega
      · simp [List.filter_cons, beq_iff_eq, hyv, hxv]
      · simp [List.filter_cons, beq_iff_eq, hyv, hxv]
      · simp [List.filter_cons, beq_iff_eq, hyv, hxv]

/-- Helper: the sort is stable — each frequency class keeps its original
order. -/
theorem filter_sortDescFreq (v : Int) (l : List (String × Int)) :
    (sortDescFreq l).filter (fun p => p.2 == v) = l.filter (fun p => p.2 == v) := by
  induction l with
  | nil => rfl
  | cons x xs ih =>
    rw [sortDescFreq, filter_insertDescFreq, ih, List.filter_cons]
    by_cases hxv : x.2 = v <;> simp [beq_iff_eq, hxv]

/-- Claim C3 counterexample: `generate_top_words` does not deduplicate — a
dataset repeating a word yields a repeated output. -/
theorem generate_top_words_not_dedup :
    generate_top_words [("cat", 50), ("cat", 50)] 2 = ["cat", "cat"] ∧
    ¬ (generate_top_words [("cat", 50), ("cat", 50)] 2).Nodup := by decide

/-- Claim C3 (amended): `generate_top_words` keeps exactly the rows whose
(stripped, lowercased) word passes the validator, sorts them by descending
frequency with a stable sort (each frequency class keeps the dataset order),
truncates to `limit`, and in particular maps the spec's example to
`["bee", "cat", "ant"]`; it does not deduplicate repeated dataset words. -/
theorem generate_top_words_spec (rows : List (String × Int)) (limit : Nat) :
    ∃ sorted : List (String × Int),
      List.Perm (validPairs rows) sorted ∧
      sorted.Pairwise (fun a b => b.2 ≤ a.2) ∧
      (∀ v : Int, sorted.filter (fun p => p.2 == v) =
        (validPairs rows).filter (fun p => p.2 == v)) ∧
      generate_top_words rows limit = (sorted.take limit).map Prod.fst ∧
      (∀ w ∈ generate_top_words rows limit, is_valid_word w = true) ∧
      (generate_top_words rows limit).length ≤ limit ∧
      generate_top_words [("cat", 50), ("1dog", 80), ("bee", 80), ("ant", 10)] 3 =
        ["bee", "cat", "ant"] := by
  refine ⟨sortDescFreq (validPairs rows), (sortDescFreq_perm _).symm,
    sortDescFreq_pairwise _, fun v => filter_sortDescFreq v _, rfl, ?_, ?_, by decide⟩
  · intro w hw
    rcases List.mem_map.mp hw with ⟨p, hp, rfl⟩
    have hp' : p ∈ validPairs rows :=
      (sortDescFreq_perm _).mem_iff.mp (List.mem_of_mem_take hp)
    rcases List.mem_filterMap.mp hp' with ⟨r, _, hr⟩
    by_cases hv : is_valid_word (pyLower (pyStrip r.1)) = true
    · simp only [hv, if_true] at hr
      have hp2 := Option.some.inj hr
      rw [← hp2]
      exact hv
    · simp [hv] at hr
  · unfold generate_top_words
    rw [List.length_map, List.length_take]
    exact min_le_left _ _

/-- Claim C5 counterexample: the explicit-add path is case-sensitive and
stores the word verbatim — with `"cat"` stored, adding `"Cat"` succeeds and
leaves two entries, the second not lowercase. -/
theorem add_word_case_sensitive :
    (add_explicit_word (add_explicit_word emptyStore "cat" "" "" "").1 "Cat" "" "" "").2 =
      AddResult.added ∧
    ((add_explicit_word (add_explicit_word emptyStore "cat" "" "" "").1
        "Cat" "" "" "").1.entries.map (fun e => e.word)) = ["cat", "Cat"] := by decide

/-- Helper: when the stripped input is already stored (exact match), the
explicit-add path reports a duplicate and leaves the store unchanged. -/
theorem add_explicit_word_duplicate (s : Store) (input ex zh ja : String)
    (hval : is_valid_word (pyStrip input) = true)
    (hmem : ∃ e ∈ s.entries, e.word = pyStrip input) :
    add_explicit_word s input ex zh ja = (s, AddResult.duplicate) := by
  have hc : 0 < s.entries.countP (fun e => e.word == pyStrip input) := by
    rw [List.countP_pos_iff]
    rcases hmem with ⟨e, he, hw⟩
    exact ⟨e, he, by simp [hw]⟩
  unfold add_explicit_word
  simp [hval, hc]

/-- Helper: after a successful or duplicate explicit add of a valid word,
some stored entry carries the stripped input as its word. -/
theorem add_explicit_word_mem (s : Store) (input ex zh ja : String)
    (hval : is_valid_word (pyStrip input) = true) :
    ∃ e ∈ (add_explicit_word s input ex zh ja).1.entries,
      e.word = pyStrip input := by
  unfold add_explicit_word
  simp only [hval, Bool.true_eq_false, if_false]
  by_cases hdup : 0 < s.entries.countP (fun e => e.word == pyStrip input)
  · rw [if_pos hdup]
    rcases List.countP_pos_iff.mp hdup with ⟨e, he, hp⟩
    exact ⟨e, he, by simpa using hp⟩
  · rw [if_neg hdup]
    refine ⟨_, List.mem_append_right _ (List.mem_singleton_self _), rfl⟩

/-- Claim C5 (amended): the duplicate check of the explicit-add path is an
exact, case-sensitive comparison of the stripped input against the stored
words (stored verbatim); repeating the same input therefore yields exactly
one stored entry and a duplicate failure on the second call. -/
theorem add_explicit_word_idempotent (s : Store) (input ex zh ja : String)
    (h : is_valid_word (pyStrip input) = true) :
    add_explicit_word (add_explicit_word s input ex zh ja).1 input ex zh ja =
      ((add_explicit_word s input ex zh ja).1, AddResult.duplicate) := by
  have hmem : ∃ e ∈ (add_explicit_word s input ex zh ja).1.entries,
      e.word = pyStrip input := add_explicit_word_mem s input ex zh ja h
  exact add_explicit_word_duplicate _ input ex zh ja h hmem

/-- Witness for the amended C5 at a concrete input. -/
theorem add_explicit_word_idempotent_witness :
    add_explicit_word (add_explicit_word emptyStore "cat" "" "" "").1 "cat" "" "" "" =
      ((add_explicit_word emptyStore "cat" "" "" "").1, AddResult.duplicate) :=
  add_explicit_word_idempotent emptyStore "cat" "" "" "" (by decide)

/-- Claim C6 counterexample: when enrichment fails for a candidate, the word
is NOT skipped — `fetch_word_details` swallows the failure, so the pipeline
still inserts the word (with blank fields and the `'未知'` sentinel) and
counts it. -/
theorem enrichment_failure_still_adds :
    (add_from_dataset failingGateway emptyStore ["cat"]).2 = 1 ∧
    ((add_from_dataset failingGateway emptyStore ["cat"]).1.entries.map
      (fun e => (e.word, e.exampleSentence, e.pos, e.tense))) =
      [("cat", "", "未知", "未知")] := by decide

/-- Claim C6 (amended): on a per-word enrichment failure the candidate is
still added, with empty textual fields and the "unknown" sentinel for
part-of-speech and tense, it is included in the reported count, and the
pipeline continues with the remaining candidates. -/
theorem add_from_dataset_failure_behavior (s : Store) (w : String) (ws : List String)
    (h : ∀ e ∈ s.entries, e.word ≠ w) :
    add_from_dataset failingGateway s (w :: ws) =
      ((add_from_dataset failingGateway (insertDatasetEntry s w blankDetails) ws).1,
       (add_from_dataset failingGateway (insertDatasetEntry s w blankDetails) ws).2 + 1) := by
  have hc : s.entries.countP (fun e => e.word == w) = 0 := by
    rw [List.countP_eq_zero]
    intro e he
    simpa using h e he
  have hnd : ¬ 0 < s.entries.countP (fun e => e.word == w) := by omega
  show (if 0 < s.entries.countP (fun e => e.word == w) then
      add_from_dataset failingGateway s ws
    else
      ((add_from_dataset failingGateway
          (insertDatasetEntry s w (fetch_word_details failingGateway w)) ws).1,
       (add_from_dataset failingGateway
          (insertDatasetEntry s w (fetch_word_details failingGateway w)) ws).2 + 1)) = _
  rw [if_neg hnd]
  rfl

/-- Witness for the amended C6 at a concrete input. -/
theorem add_from_dataset_failure_behavior_witness :
    add_from_dataset failingGateway emptyStore ["cat"] =
      ((add_from_dataset failingGateway
          (insertDatasetEntry emptyStore "cat" blankDetails) []).1,
       (add_from_dataset failingGateway
          (insertDatasetEntry emptyStore "cat" blankDetails) []).2 + 1) :=
  add_from_dataset_failure_behavior emptyStore "cat" [] (by decide)

/-- Helper: a field whose line is missing parses to the empty string. -/
theorem lineField_of_missing (lines : List (List Char)) (k : Nat) (pre : String)
    (h : lines.length ≤ k) : lineField lines k pre = "" := by
  unfold lineField
  rw [List.getD_eq_default _ _ h]
  rfl

/-- Claim C7: `fetch_word_details` is total.  A transport failure returns the
all-blank tuple with the "unknown" sentinel for part-of-speech and tense; a
response with fewer structured lines than expected parses without any
out-of-range access, the missing trailing fields defaulting to the empty
string (or the sentinel for the last two); and a successful transport is
exactly the parse of the response text. -/
theorem fetch_word_details_total (w text : String) :
    fetch_word_details failingGateway w = blankDetails ∧
    ((pyLines text).length ≤ 0 → (parse_word_details text).zh_trans = "") ∧
    ((pyLines text).length ≤ 1 → (parse_word_details text).ja_trans = "") ∧
    ((pyLines text).length ≤ 2 → (parse_word_details text).exampleSentence = "") ∧
    ((pyLines text).length ≤ 3 → (parse_word_details text).zh_example_trans = "") ∧
    ((pyLines text).length ≤ 4 → (parse_word_details text).ja_example_trans = "") ∧
    ((pyLines text).length ≤ 5 → (parse_word_details text).pos = "未知") ∧
    ((pyLines text).length ≤ 6 → (parse_word_details text).tense = "未知") ∧
    fetch_word_details (fun _ => Except.ok text) w = parse_word_details text := by
  refine ⟨rfl, ?_, ?_, ?_, ?_, ?_, ?_, ?_, rfl⟩ <;> intro h <;>
    simp [parse_word_details, lineField_of_missing _ _ _ h]

/-- Helper: the explicit-add path either leaves the table unchanged or
appends one fresh unlearned row with interval 1. -/
theorem add_explicit_word_entries (s : Store) (input ex zh ja : String) :
    (add_explicit_word s input ex zh ja).1.entries = s.entries ∨
    ∃ E : Entry, (add_explicit_word s input ex zh ja).1.entries = s.entries ++ [E] ∧
      E.learned = 0 ∧ E.mastered = 0 ∧ E.interval = 1 := by
  simp only [add_explicit_word]
  split
  · left; rfl
  · split
    · left; rfl
    · right; exact ⟨_, rfl, rfl, rfl, rfl⟩

/-- Helper: the dataset insert appends one fresh unlearned row with
interval 1. -/
theorem insertDatasetEntry_entries (s : Store) (w : String) (d : WordDetails) :
    ∃ E : Entry, (insertDatasetEntry s w d).entries = s.entries ++ [E] ∧
      E.learned = 0 ∧ E.mastered = 0 ∧ E.interval = 1 :=
  ⟨_, rfl, rfl, rfl, rfl⟩

/-- Helper: a review keeps the boolean columns well formed (it sets
`learned = 1` and leaves `mastered` untouched). -/
theorem entryOk_applyReview (e : Entry) (lvl today : Int) (h : entryOk e) :
    entryOk (applyReviewEntry e lvl today) := by
  obtain ⟨_, h2, _⟩ := h
  exact ⟨Or.inr rfl, h2, fun _ => rfl⟩

/-- Helper: marking mastered keeps the boolean columns well formed. -/
theorem entryOk_markMastered (e : Entry) : entryOk (markMasteredEntry e) :=
  ⟨Or.inr rfl, Or.inr rfl, fun _ => rfl⟩

/-- Helper: every user action preserves well-formed boolean columns. -/
theorem stepOp_preserves_ok (s : Store) (op : Op) (h : ∀ e ∈ s.entries, entryOk e) :
    ∀ e ∈ (stepOp s op).entries, entryOk e := by
  cases op with
  | create input ex zh ja =>
    intro e he
    simp only [stepOp] at he
    rcases add_explicit_word_entries s input ex zh ja with heq | ⟨E, heq, hE1, hE2, _⟩
    · rw [heq] at he; exact h e he
    · rw [heq] at he
      rcases List.mem_append.mp he with he' | he'
      · exact h e he'
      · rw [List.mem_singleton.mp he']
        exact ⟨Or.inl hE1, Or.inl hE2, fun hm => by omega⟩
  | addData w d =>
    intro e he
    simp only [stepOp] at he
    split at he
    · exact h e he
    · rcases insertDatasetEntry_entries s w d with ⟨E, heq, hE1, hE2, _⟩
      rw [heq] at he
      rcases List.mem_append.mp he with he' | he'
      · exact h e he'
      · rw [List.mem_singleton.mp he']
        exact ⟨Or.inl hE1, Or.inl hE2, fun hm => by omega⟩
  | review id lvl today =>
    intro e he
    simp only [stepOp] at he
    rcases List.mem_map.mp he with ⟨a, ha, rfl⟩
    by_cases hid : a.id = id
    · rw [if_pos hid]; exact entryOk_applyReview a lvl today (h a ha)
    · rw [if_neg hid]; exact h a ha
  | master id =>
    intro e he
    simp only [stepOp] at he
    rcases List.mem_map.mp he with ⟨a, ha, rfl⟩
    by_cases hid : a.id = id
    · rw [if_pos hid]; exact entryOk_markMastered a
    · rw [if_neg hid]; exact h a ha

/-- Helper: running actions from a well-formed table keeps it well formed. -/
theorem foldl_stepOp_ok (ops : List Op) (s : Store) (h : ∀ e ∈ s.entries, entryOk e) :
    ∀ e ∈ (ops.foldl stepOp s).entries, entryOk e := by
  induction ops generalizing s with
  | nil => exact h
  | cons op rest ih => exact ih (stepOp s op) (stepOp_preserves_ok s op h)

/-- Helper: on a well-formed table the three class counts partition the
rows. -/
theorem stats_sum_of_ok (l : List Entry) (h : ∀ e ∈ l, entryOk e) :
    (check_database_stats l).unlearned + (check_database_stats l).learned_not_mastered +
      (check_database_stats l).mastered = (check_database_stats l).total := by
  induction l with
  | nil => rfl
  | cons e es ih =>
    have he := h e (List.mem_cons_self e es)
    have hrec := ih (fun e' he' => h e' (List.mem_cons_of_mem _ he'))
    simp only [check_database_stats, List.countP_cons, List.length_cons] at hrec ⊢
    obtain ⟨h1, h2, h3⟩ := he
    rcases h1 with h1 | h1 <;> rcases h2 with h2 | h2
    · norm_num [h1, h2]; omega
    · exfalso; have := h3 h2; omega
    · norm_num [h1, h2]; omega
    · norm_num [h1, h2]; omega

/-- Claim C2: after any sequence of entry creations (either path), review
actions and mastered marks starting from the empty store, the statistics
satisfy `unlearned + learned_not_mastered + mastered = total`. -/
theorem stats_invariant (ops : List Op) :
    (check_database_stats (runOps ops).entries).unlearned +
      (check_database_stats (runOps ops).entries).learned_not_mastered +
      (check_database_stats (runOps ops).entries).mastered =
      (check_database_stats (runOps ops).entries).total :=
  stats_sum_of_ok _ (foldl_stepOp_ok ops emptyStore
    (fun e he => absurd he (by simp [emptyStore])))

/-- Helper: a review never shrinks a positive interval below 1. -/
theorem applyReview_interval_ge (e : Entry) (lvl today : Int) (h : 1 ≤ e.interval) :
    1 ≤ (applyReviewEntry e lvl today).interval := by
  have hz : ¬ e.interval = 0 := by omega
  unfold applyReviewEntry
  simp only [if_neg hz]
  split_ifs <;> omega

/-- Helper: every user action preserves `interval ≥ 1`. -/
theorem stepOp_preserves_interval (s : Store) (op : Op)
    (h : ∀ e ∈ s.entries, 1 ≤ e.interval) :
    ∀ e ∈ (stepOp s op).entries, 1 ≤ e.interval := by
  cases op with
  | create input ex zh ja =>
    intro e he
    simp only [stepOp] at he
    rcases add_explicit_word_entries s input ex zh ja with heq | ⟨E, heq, _, _, hE3⟩
    · rw [heq] at he; exact h e he
    · rw [heq] at he
      rcases List.mem_append.mp he with he' | he'
      · exact h e he'
      · rw [List.mem_singleton.mp he', hE3]
  | addData w d =>
    intro e he
    simp only [stepOp] at he
    split at he
    · exact h e he
    · rcases insertDatasetEntry_entries s w d with ⟨E, heq, _, _, hE3⟩
      rw [heq] at he
      rcases List.mem_append.mp he with he' | he'
      · exact h e he'
      · rw [List.mem_singleton.mp he', hE3]
  | review id lvl today =>
    intro e he
    simp only [stepOp] at he
    rcases List.mem_map.mp he with ⟨a, ha, rfl⟩
    by_cases hid : a.id = id
    · rw [if_pos hid]; exact applyReview_interval_ge a lvl today (h a ha)
    · rw [if_neg hid]; exact h a ha
  | master id =>
    intro e he
    simp only [stepOp] at he
    rcases List.mem_map.mp he with ⟨a, ha, rfl⟩
    by_cases hid : a.id = id
    · rw [if_pos hid]; exact h a ha
    · rw [if_neg hid]; exact h a ha

/-- Helper: running actions preserves `interval ≥ 1`. -/
theorem foldl_stepOp_interval (ops : List Op) (s : Store)
    (h : ∀ e ∈ s.entries, 1 ≤ e.interval) :
    ∀ e ∈ (ops.foldl stepOp s).entries, 1 ≤ e.interval := by
  induction ops generalizing s with
  | nil => exact h
  | cons op rest ih => exact ih (stepOp s op) (stepOp_preserves_interval s op h)

/-- Claim C9 (amended): entry creation (both paths), every review action at
every familiarity level, and marking mastered preserve `interval ≥ 1`, so
every entry reachable by user actions has `interval ≥ 1`; CSV import is the
exception (see the counterexample: its default kicks in only for an empty
interval column, so a column holding `"0"` is stored as 0). -/
theorem interval_invariant (ops : List Op) (e : Entry)
    (he : e ∈ (runOps ops).entries) : 1 ≤ e.interval :=
  foldl_stepOp_interval ops emptyStore
    (fun e' he' => absurd he' (by simp [emptyStore])) e he

/-- Witness for the amended C9: the entry created by one explicit add has
interval 1. -/
theorem interval_invariant_witness :
    1 ≤ (Entry.mk 1 "cat" "" "" "" "" "" "" "" 1 none 0 0 1 none).interval :=
  interval_invariant [Op.create "cat" "" "" ""]
    (Entry.mk 1 "cat" "" "" "" "" "" "" "" 1 none 0 0 1 none) (by decide)

/-- Claim C9 counterexample: importing a well-formed 15-column row whose
interval column holds `"0"` stores an entry with interval 0 — `int(row[13]
or 1)` only defaults on an empty string, so CSV import does not preserve
`interval ≥ 1`. -/
theorem import_breaks_interval :
    (import_words_from_csv emptyStore [badImportRow]).2 = 1 ∧
    ((import_words_from_csv emptyStore [badImportRow]).1.entries.map
      (fun e => e.interval)) = [0] ∧
    ¬ (∀ e ∈ (import_words_from_csv emptyStore [badImportRow]).1.entries,
        1 ≤ e.interval) := by decide
